import Mathlib

/-!
Verification of the forward symbolic-execution core and solver façade of
a bounded model checker (CBMC slice).  The definitions below are a shallow
embedding of `solver_factory.cpp` and the symbolic-execution driver
(`symex_transition`, `vcc`, `symex_assume`, `rewrite_quantifiers`,
`switch_to_thread`, `symex_threaded_step`, `symex_step`).  Functions whose
bodies are not part of the given slice (they are only declared in
`goto_symex.h`) are modelled from the specification and marked as such in
their doc comments.
-/

namespace CbmcModel

/-! ## Options records

The option table consumed by the solver factory and the symbolic
execution configuration.  Each field mirrors one option key read via
`get_bool_option` / `get_option` / `is_set` in the source. -/

/-- The slice of the option table read by `solver_factoryt`.  Boolean
fields stand for `get_bool_option(key)`, `_is_set` fields for
`is_set(key)`, string fields for `get_option(key)`. -/
structure optionst where
  dimacs : Bool := false
  refine : Bool := false
  refine_strings : Bool := false
  smt2 : Bool := false
  beautify : Bool := false
  sat_preprocessor : Bool := false
  all_properties : Bool := false
  cover_is_set : Bool := false
  incremental_check_is_set : Bool := false
  outfile : String := ""
  arrays_uf : String := ""
  solver_time_limit : Int := 0
  max_node_refinement_bool : Bool := false
  max_node_refinement : Nat := 0
  refine_arrays : Bool := false
  refine_arithmetic : Bool := false
  fpa : Bool := false
  boolector : Bool := false
  cprover_smt2 : Bool := false
  mathsat : Bool := false
  cvc3 : Bool := false
  cvc4 : Bool := false
  yices : Bool := false
  z3 : Bool := false
  generic : Bool := false
  deriving DecidableEq

/-! ## Solver factory data model -/

/-- The propositional (SAT-level) back ends that the factory constructs. -/
inductive prop_kindt
  | satcheck                 -- `satcheckt`, SAT solver with preprocessor
  | satcheck_no_simplifier   -- `satcheck_no_simplifiert`
  | dimacs_cnf               -- `dimacs_cnft`
  deriving DecidableEq

/-- `bv_pointerst::unbounded_arrayt` (selected via `arrays-uf`). -/
inductive unbounded_arrayt
  | U_AUTO
  | U_NONE
  | U_ALL
  deriving DecidableEq

/-- `smt2_dect::solvert`: the SMT 2 solver families. -/
inductive smt2_solvert
  | GENERIC
  | BOOLECTOR
  | CPROVER_SMT2
  | MATHSAT
  | CVC3
  | CVC4
  | YICES
  | Z3
  deriving DecidableEq

/-- Destination of the SMT 2 conversion layer. -/
inductive smt2_destt
  | to_stdout
  | to_file (filename : String)
  deriving DecidableEq

/-- The flattening / conversion layers (`prop_convt` subclasses) that the
factory can construct, with the configuration data each receives. -/
inductive prop_conv_kindt
  | bv_pointers (unbounded_array : unbounded_arrayt)
  | bv_dimacs (filename : String)
  | bv_refinement (max_node_refinement : Option Nat)
      (refine_arrays refine_arithmetic : Bool) (output_xml : Bool)
  | string_refinement (refinement_bound : Nat) (max_node_refinement : Option Nat)
      (refine_arrays refine_arithmetic : Bool) (output_xml : Bool)
  | smt2_dec (logic : String) (solver : smt2_solvert) (fpa : Bool)
  | smt2_conv (dest : smt2_destt) (logic : String) (solver : smt2_solvert) (fpa : Bool)
  deriving DecidableEq

/-- `solver_factoryt::solvert`: the bundle of a conversion layer, an
optional propositional back end, and an optional owned output stream;
`time_limit_seconds` records a `set_time_limit_seconds` call. -/
structure solvert where
  prop_conv : prop_conv_kindt
  prop : Option prop_kindt := none
  has_ofstream : Bool := false
  time_limit_seconds : Option Int := none
  deriving DecidableEq

/-- `invalid_command_line_argument_exceptiont` (message, option, hint). -/
structure invalid_command_line_argumentt where
  message : String
  option_name : String
  hint : String := ""
  deriving DecidableEq

/-- Result type of factory operations that may throw. -/
abbrev factory_resultt (α : Type) := Except invalid_command_line_argumentt α

/-- `solver_factoryt::set_prop_conv_time_limit`: applies
`solver-time-limit` when it is positive. -/
def set_prop_conv_time_limit (opts : optionst) (s : solvert) : solvert :=
  if opts.solver_time_limit > 0 then
    { s with time_limit_seconds := some opts.solver_time_limit }
  else s

/-- `solver_factoryt::no_beautification`: reject `beautify`. -/
def no_beautification (opts : optionst) : factory_resultt Unit :=
  if opts.beautify then
    .error { message := "the chosen solver does not support beautification",
             option_name := "--beautify" }
  else .ok ()

/-- `solver_factoryt::no_incremental_check`: reject `all-properties`,
`cover`, and `incremental-check`, in that order. -/
def no_incremental_check (opts : optionst) : factory_resultt Unit :=
  if opts.all_properties then
    .error { message := "the chosen solver does not support incremental solving",
             option_name := "--all_properties" }
  else if opts.cover_is_set then
    .error { message := "the chosen solver does not support incremental solving",
             option_name := "--cover" }
  else if opts.incremental_check_is_set then
    .error { message := "the chosen solver does not support incremental solving",
             option_name := "--incremental-check" }
  else .ok ()

/-- `solver_factoryt::get_smt2_solver_type`: pick the SMT 2 solver family
from the mutually exclusive option booleans; `GENERIC` is the default. -/
def get_smt2_solver_type (opts : optionst) : smt2_solvert :=
  if opts.boolector then .BOOLECTOR
  else if opts.cprover_smt2 then .CPROVER_SMT2
  else if opts.mathsat then .MATHSAT
  else if opts.cvc3 then .CVC3
  else if opts.cvc4 then .CVC4
  else if opts.yices then .YICES
  else if opts.z3 then .Z3
  else if opts.generic then .GENERIC
  else .GENERIC

/-- `solver_factoryt::get_default`: bit-vector flattening over a SAT back
end; the SAT preprocessor is dropped when `beautify` is set or
`sat-preprocessor` is unset; `arrays-uf` tunes unbounded-array handling. -/
def get_default (opts : optionst) : solvert :=
  let prop : prop_kindt :=
    if opts.beautify || !opts.sat_preprocessor then .satcheck_no_simplifier
    else .satcheck
  let unbounded :=
    if opts.arrays_uf = "never" then unbounded_arrayt.U_NONE
    else if opts.arrays_uf = "always" then unbounded_arrayt.U_ALL
    else unbounded_arrayt.U_AUTO
  set_prop_conv_time_limit opts
    { prop_conv := .bv_pointers unbounded, prop := some prop }

/-- `solver_factoryt::get_dimacs`: the DIMACS dumper bundle. -/
def get_dimacs (opts : optionst) : factory_resultt solvert := do
  no_beautification opts
  no_incremental_check opts
  .ok { prop_conv := .bv_dimacs opts.outfile, prop := some .dimacs_cnf }

/-- `solver_factoryt::get_bv_refinement`: bit-vector refinement over SAT;
`no_beautification` is checked only when the SAT preprocessor is used. -/
def get_bv_refinement (opts : optionst) : factory_resultt solvert := do
  let prop : prop_kindt ←
    if opts.sat_preprocessor then do
      no_beautification opts
      pure .satcheck
    else
      pure .satcheck_no_simplifier
  let max_node :=
    if opts.max_node_refinement_bool then some opts.max_node_refinement else none
  .ok (set_prop_conv_time_limit opts
    { prop_conv := .bv_refinement max_node opts.refine_arrays
        opts.refine_arithmetic true,
      prop := some prop })

/-- External constant `DEFAULT_MAX_NB_REFINEMENT` of the string solver
(value irrelevant to the claims; the header defining it is not in the
slice). -/
def DEFAULT_MAX_NB_REFINEMENT : Nat := 100

/-- `solver_factoryt::get_string_refinement`: string refinement wrapping
a SAT back end without preprocessor. -/
def get_string_refinement (opts : optionst) : factory_resultt solvert :=
  let max_node :=
    if opts.max_node_refinement_bool then some opts.max_node_refinement else none
  .ok (set_prop_conv_time_limit opts
    { prop_conv := .string_refinement DEFAULT_MAX_NB_REFINEMENT max_node
        opts.refine_arrays opts.refine_arithmetic true,
      prop := some .satcheck_no_simplifier })

/-- `solver_factoryt::get_smt2`: the SMT-LIB 2.0 back end.  With an empty
`outfile` the generic family has no destination and is rejected; `"-"`
selects stdout; otherwise a file stream is opened and owned by the
bundle.  (Failure to open the file is an I/O condition outside this
model; opening is modelled as succeeding.) -/
def get_smt2 (opts : optionst) (solver : smt2_solvert) : factory_resultt solvert := do
  no_beautification opts
  if opts.outfile = "" then
    if solver = .GENERIC then
      .error { message := "required filename not provided",
               option_name := "--outfile",
               hint := "provide a filename with --outfile" }
    else
      .ok (set_prop_conv_time_limit opts
        { prop_conv := .smt2_dec "QF_AUFBV" solver opts.fpa })
  else if opts.outfile = "-" then
    .ok (set_prop_conv_time_limit opts
      { prop_conv := .smt2_conv .to_stdout "QF_AUFBV" solver opts.fpa })
  else
    .ok (set_prop_conv_time_limit opts
      { prop_conv := .smt2_conv (.to_file opts.outfile) "QF_AUFBV" solver opts.fpa,
        has_ofstream := true })

/-- `solver_factoryt::get_solver`: back-end selection, first match wins:
`dimacs`, then `refine`, then `refine-strings`, then `smt2`, otherwise
the default bit-vector-over-SAT solver. -/
def get_solver (opts : optionst) : factory_resultt solvert :=
  if opts.dimacs then get_dimacs opts
  else if opts.refine then get_bv_refinement opts
  else if opts.refine_strings then get_string_refinement opts
  else if opts.smt2 then get_smt2 opts (get_smt2_solver_type opts)
  else .ok (get_default opts)

/-! ## Expressions and guards -/

/-- A fragment of `exprt` sufficient for the conditions manipulated by
the driver slice: constants, symbols, boolean connectives and the two
quantifiers tested by `has_subexpr(_, ID_exists/ID_forall)`. -/
inductive exprt
  | true_
  | false_
  | sym (n : Nat)
  | not_ (e : exprt)
  | and_ (a b : exprt)
  | or_ (a b : exprt)
  | implies_ (a b : exprt)
  | exists_ (v : Nat) (body : exprt)
  | forall_ (v : Nat) (body : exprt)
  deriving DecidableEq

/-- `exprt::is_true`: the expression is the constant `true`. -/
def exprt.is_true : exprt → Bool
  | .true_ => true
  | _ => false

/-- `exprt::is_false`: the expression is the constant `false`. -/
def exprt.is_false : exprt → Bool
  | .false_ => true
  | _ => false

/-- `has_subexpr(e, ID_exists)`. -/
def hasExists : exprt → Bool
  | .exists_ _ _ => true
  | .not_ e => hasExists e
  | .and_ a b => hasExists a || hasExists b
  | .or_ a b => hasExists a || hasExists b
  | .implies_ a b => hasExists a || hasExists b
  | .forall_ _ b => hasExists b
  | _ => false

/-- `has_subexpr(e, ID_forall)`. -/
def hasForall : exprt → Bool
  | .forall_ _ _ => true
  | .not_ e => hasForall e
  | .and_ a b => hasForall a || hasForall b
  | .or_ a b => hasForall a || hasForall b
  | .implies_ a b => hasForall a || hasForall b
  | .exists_ _ b => hasForall b
  | _ => false

/-- A guard is a conjunction list of path conditions.
Modelled from the spec (§4.1 guard algebra): the `guardt` implementation
is not part of the slice. -/
abbrev guardt := List exprt

/-- `guardt::is_true`: the empty conjunction. -/
def guardt.is_true (g : guardt) : Bool := g.isEmpty

/-- `guardt::is_false`: the conjunction contains the constant `false`.
Modelled from the spec: an added `false` collapses the guard. -/
def guardt.is_false (g : guardt) : Bool := g.contains exprt.false_

/-- `guardt::add`: conjoin a condition.  Modelled from the spec (§4.1):
adding `true` is a no-op, an added `false` collapses the guard,
identical conjuncts are deduplicated. -/
def guardt.add (g : guardt) (e : exprt) : guardt :=
  if e.is_true then g
  else if e.is_false then [exprt.false_]
  else if g.contains e then g
  else g ++ [e]

/-- `guardt::as_expr`: the conjunction as a single expression. -/
def guardt.as_expr : guardt → exprt
  | [] => .true_
  | [e] => e
  | e :: rest => .and_ e (guardt.as_expr rest)

/-- `guardt::guard_expr(e) = g ⇒ e`.  Modelled from the spec (§4.1):
under a `true` guard the obligation is left unwrapped. -/
def guardt.guard_expr (g : guardt) (e : exprt) : exprt :=
  if g.is_true then e else .implies_ g.as_expr e

/-- Disjunction of two incoming guards at a merge.  Modelled from the
spec (§4.5): guards merge by disjunction, simplified when one side is
degenerate. -/
def guardt.disjoin (g1 g2 : guardt) : guardt :=
  if g1.is_false then g2
  else if g2.is_false then g1
  else if g1.is_true || g2.is_true then []
  else [.or_ g1.as_expr g2.as_expr]

/-! ## Program representation -/

/-- An incoming edge of an instruction: the jump instruction pointing at
it, abstracted to the three facts `symex_transition` reads
(`is_goto()`, `is_backwards_goto()`, `location_number`). -/
structure edget where
  is_goto : Bool := false
  is_backwards : Bool := false
  location_number : Nat := 0
  deriving DecidableEq

/-- `goto_programt::instructiont::type`. -/
inductive instr_typet
  | SKIP
  | END_FUNCTION
  | LOCATION
  | GOTO
  | ASSUME
  | ASSERT
  | RETURN
  | ASSIGN
  | FUNCTION_CALL
  | OTHER
  | DECL
  | DEAD
  | START_THREAD
  | END_THREAD
  | ATOMIC_BEGIN
  | ATOMIC_END
  | CATCH
  | THROW
  | NO_INSTRUCTION_TYPE
  deriving DecidableEq

/-- A goto-program instruction, restricted to the payload read by the
modelled slice.  In a goto-program `location_number` equals the
instruction's global position, so the position in the program list
serves as the location number and the program counter. -/
structure instructiont where
  itype : instr_typet := .SKIP
  guard : exprt := .true_           -- condition of assume/assert/goto
  incoming_edges : List edget := []
  comment : String := ""            -- source_location comment (assert msg)
  decl_sym : Nat := 0               -- symbol of decl/dead
  goto_target : Nat := 0            -- jump target of goto
  thread_target : Nat := 0          -- code address of start_thread
  assign_lhs : Nat := 0             -- lhs symbol of an assign
  assign_rhs : exprt := .true_      -- rhs of an assign
  deriving DecidableEq

/-- `symex_targett::sourcet`: function, program counter and thread. -/
structure sourcet where
  function_id : Nat := 0
  pc : Nat := 0
  thread_nr : Nat := 0
  deriving DecidableEq

/-- A frame of the call stack; the slice touches the per-loop iteration
counters (keyed by loop id = function × back-edge location) and the
frame-local declarations. -/
structure framet where
  loop_iterations : List ((Nat × Nat) × Nat) := []
  locals : List Nat := []
  deriving DecidableEq

/-- `goto_symex_statet::threadt`: program counter, atomic-section id,
guard snapshot, and the call stack of the thread. -/
structure threadt where
  pc : Nat := 0
  atomic_section_id : Nat := 0
  guard : guardt := []
  call_stack : List framet := []
  deriving DecidableEq

/-- `goto_symex_statet`, restricted to the fields the slice reads or
writes. -/
structure statet where
  source : sourcet := {}
  guard : guardt := []
  threads : List threadt := []
  atomic_section_id : Nat := 0
  depth : Nat := 0
  total_vccs : Nat := 0
  remaining_vccs : Nat := 0
  goto_state_map : List (Nat × guardt) := []  -- saved goto-states by target pc
  dead_syms : List Nat := []                  -- renamings invalidated by DEAD
  decl_count : Nat := 0                       -- fresh level-1 instance counter
  deriving DecidableEq

/-- Steps of the symbolic target equation. -/
inductive ssa_stept
  | assumption (guard : exprt) (cond : exprt) (source : sourcet)
  | assertion (guard : exprt) (cond : exprt) (msg : String) (source : sourcet)
  | location (guard : exprt) (source : sourcet)
  | decl (guard : exprt) (symb : Nat) (source : sourcet)
  | assignment (guard : exprt) (lhs : Nat) (rhs : exprt) (source : sourcet)
  deriving DecidableEq

/-- The mutable members of `goto_symext` that the slice touches, paired
with the execution state: the target equation, the pause flag, and the
VCC statistics mirrors. -/
structure symext where
  state : statet := {}
  target : List ssa_stept := []
  should_pause_symex : Bool := false
  path_segment_vccs : Nat := 0
  total_vccs_out : Nat := 0
  remaining_vccs_out : Nat := 0
  atomic_section_counter : Nat := 0
  deriving DecidableEq

/-- External collaborators of the driver whose implementations are
outside the slice: `do_simplify`, the SSA renamer (`state.rename`), and
`clean_expr`.  The claims hold for every choice of these functions. -/
structure extt where
  simplify : exprt → exprt
  rename : exprt → exprt
  clean : exprt → exprt

/-! ## List helpers (explicit recursion, used by the state accessors) -/

/-- Thread lookup; out-of-range yields the default record (the source
guards accesses with `PRECONDITION`s on the index). -/
def get_thread : List threadt → Nat → threadt
  | [], _ => {}
  | t :: _, 0 => t
  | _ :: ts, n + 1 => get_thread ts n

/-- Pointwise update of one thread record. -/
def update_thread : List threadt → Nat → (threadt → threadt) → List threadt
  | [], _, _ => []
  | t :: ts, 0, f => f t :: ts
  | t :: ts, n + 1, f => t :: update_thread ts n f

/-- Instruction lookup by program counter. -/
def inst_at : List instructiont → Nat → Option instructiont
  | [], _ => none
  | i :: _, 0 => some i
  | _ :: is_, n + 1 => inst_at is_ n

/-- Incoming edges of the instruction at a position (none if absent). -/
def incoming_edges_at (prog : List instructiont) (i : Nat) : List edget :=
  match inst_at prog i with
  | some ins => ins.incoming_edges
  | none => []

/-- Insert-or-update in the loop-iteration map (the behaviour of
`operator[]` followed by an assignment to `.count`). -/
def assoc_set (l : List ((Nat × Nat) × Nat)) (k : Nat × Nat) (v : Nat) :
    List ((Nat × Nat) × Nat) :=
  match l with
  | [] => [(k, v)]
  | (k', v') :: rest =>
    if k' = k then (k, v) :: rest else (k', v') :: assoc_set rest k v

/-- Lookup in the loop-iteration map. -/
def assoc_get (l : List ((Nat × Nat) × Nat)) (k : Nat × Nat) : Option Nat :=
  match l with
  | [] => none
  | (k', v') :: rest => if k' = k then some v' else assoc_get rest k

/-! ## State accessors -/

/-- `state.call_stack()`: the call stack of the executing thread. -/
def statet.call_stack (st : statet) : List framet :=
  (get_thread st.threads st.source.thread_nr).call_stack

/-- `state.top()`: the top frame (head of the stack). -/
def statet.top (st : statet) : framet :=
  st.call_stack.headD {}

/-- Replace the call stack of the executing thread. -/
def statet.set_call_stack (st : statet) (cs : List framet) : statet :=
  let ts := update_thread st.threads st.source.thread_nr
    (fun th => { th with call_stack := cs })
  { st with threads := ts }

/-- Replace the top frame of the executing thread. -/
def statet.set_top (st : statet) (fr : framet) : statet :=
  st.set_call_stack (fr :: st.call_stack.tail)

/-- `framet::loop_iterations[loop_id].count = v`. -/
def framet.set_loop (f : framet) (k : Nat × Nat) (v : Nat) : framet :=
  { f with loop_iterations := assoc_set f.loop_iterations k v }

/-! ## `symex_transition` -/

/-- `symex_transition(state, to, is_backwards_goto)`: reset to zero the
loop-iteration counter of every loop whose back edge enters `to`, when
the transition is not a backwards goto or arrives from a strictly
greater location; then move the program counter to `to`. -/
def symex_transition (prog : List instructiont) (st : statet) (tgt : Nat)
    (is_backwards_goto : Bool) : statet :=
  let st1 :=
    if st.call_stack.isEmpty then st
    else
      let frame :=
        (incoming_edges_at prog tgt).foldl
          (fun f i_e =>
            if i_e.is_goto && i_e.is_backwards &&
               (!is_backwards_goto || decide (st.source.pc > i_e.location_number))
            then f.set_loop (st.source.function_id, i_e.location_number) 0
            else f)
          st.top
      st.set_top frame
  { st1 with source := { st1.source with pc := tgt } }

/-- `symex_transition(state)`: advance to the next instruction. -/
def symex_transition_next (prog : List instructiont) (st : statet) : statet :=
  symex_transition prog st (st.source.pc + 1) false

/-- Advancing the program counter of the driver state. -/
def advance (prog : List instructiont) (s : symext) : symext :=
  { s with state := symex_transition_next prog s.state }

/-! ## Handlers of the step dispatcher

The bodies marked `Modelled from the spec:` are declared in
`goto_symex.h` but their implementations are not part of the slice. -/

/-- Modelled from the spec: `symex_atomic_end` is only declared in the
slice.  Invariants 5 and 6 of §3 require the atomic-section bookkeeping
to run even under a false guard and the atomic-section id to be zero
outside any atomic region, so ending the section clears the id. -/
def symex_atomic_end (s : symext) : symext :=
  { s with state := { s.state with atomic_section_id := 0 } }

/-- Modelled from the spec: `symex_atomic_begin` is only declared in the
slice.  §4.3(i): a false guard skips the side effect; otherwise a fresh
strictly positive atomic-section id is taken (§3 invariant 6). -/
def symex_atomic_begin (s : symext) : symext :=
  if s.state.guard.is_false then s
  else
    { s with atomic_section_counter := s.atomic_section_counter + 1,
             state := { s.state with
                        atomic_section_id := s.atomic_section_counter + 1 } }

/-- The tail of `symex_assume` (source lines 487–489): an atomic
section whose state has become infeasible is ended. -/
def atomic_end_fixup (s1 : symext) : symext :=
  if s1.state.atomic_section_id ≠ 0 && s1.state.guard.is_false then
    symex_atomic_end s1
  else s1

/-- `goto_symext::symex_assume` (source lines 463–490): simplify the
condition; a literal `true` is dropped; with a single thread an
assumption step is appended, otherwise the condition is folded into the
guard; finally, an atomic section left with a false guard is ended. -/
def symex_assume (ext : extt) (s : symext) (cond : exprt) : symext :=
  let simplified_cond := ext.simplify cond
  if simplified_cond.is_true then s
  else
    let s1 :=
      if s.state.threads.length = 1 then
        let tmp := s.state.guard.guard_expr simplified_cond
        { s with target := s.target ++
            [.assumption s.state.guard.as_expr tmp s.state.source] }
      else
        { s with state := { s.state with
                            guard := s.state.guard.add simplified_cond } }
    atomic_end_fixup s1

/-- Modelled from the spec: `symex_decl(statet &, const symbol_exprt &)`
is only declared in the slice.  §4.3 decl: introduce a fresh level-1
instance, record the symbol in the current frame's local list, emit a
declaration step. -/
def symex_decl_symbol (v : Nat) (s : symext) : symext :=
  let st := { s.state with decl_count := s.state.decl_count + 1 }
  let st :=
    if st.call_stack.isEmpty then st
    else st.set_top { st.top with locals := v :: st.top.locals }
  { s with state := st,
           target := s.target ++ [.decl st.guard.as_expr v st.source] }

/-- `goto_symext::rewrite_quantifiers` (source lines 492–511): a
top-level `forall` is dropped after re-declaring its bound variable at a
fresh level-1 instance; `and`/`or` are descended into; anything else
(including `exists`) is left alone. -/
def rewrite_quantifiers : exprt → symext → exprt × symext
  | .forall_ v body, s =>
    let s := symex_decl_symbol v s
    let (tmp, s) := rewrite_quantifiers body s
    (tmp, s)
  | .or_ a b, s =>
    let (a', s) := rewrite_quantifiers a s
    let (b', s) := rewrite_quantifiers b s
    (.or_ a' b', s)
  | .and_ a b, s =>
    let (a', s) := rewrite_quantifiers a s
    let (b', s) := rewrite_quantifiers b s
    (.and_ a' b', s)
  | e, s => (e, s)

/-- The quantifier phase of `vcc`: when the condition contains a
quantifier, push negations in by simplification and rewrite the
quantifiers. -/
def vcc_quant_phase (ext : extt) (s : symext) (e : exprt) : exprt × symext :=
  if hasExists e || hasForall e then rewrite_quantifiers (ext.simplify e) s
  else (e, s)

/-- The condition tested by `vcc` after the quantifier phase, renaming
and simplification. -/
def vcc_cond (ext : extt) (s : symext) (e : exprt) : exprt :=
  ext.simplify (ext.rename (vcc_quant_phase ext s e).1)

/-- The body of `vcc` after the counter updates: rewrite quantifiers,
rename, simplify; drop a literal `true`, otherwise append an assertion
step of the guarded obligation. -/
def vcc_body (ext : extt) (s0 : symext) (vcc_expr : exprt)
    (msg : String) : symext :=
  let qp := vcc_quant_phase ext s0 vcc_expr
  let expr := ext.simplify (ext.rename qp.1)
  if expr.is_true then qp.2
  else
    let wrapped := qp.2.state.guard.guard_expr expr
    { qp.2 with
      state := { qp.2.state with
                 remaining_vccs := qp.2.state.remaining_vccs + 1 },
      target := qp.2.target ++
        [.assertion qp.2.state.guard.as_expr wrapped msg qp.2.state.source] }

/-- `goto_symext::vcc` (source lines 430–461): count the VCC, then run
the quantifier/renaming/simplification pipeline, dropping a literal
`true` and otherwise emitting the assertion step. -/
def vcc (ext : extt) (s : symext) (vcc_expr : exprt) (msg : String) : symext :=
  vcc_body ext
    { s with
      state := { s.state with total_vccs := s.state.total_vccs + 1 },
      path_segment_vccs := s.path_segment_vccs + 1 }
    vcc_expr msg

/-- Modelled from the spec: `merge_gotos` is only declared in the slice.
§4.5: saved goto-states waiting at the current program counter are
merged into the state; guards merge by disjunction (the phi and
value-set parts of the merge are outside the modelled slice). -/
def merge_gotos (s : symext) : symext :=
  let pc := s.state.source.pc
  let here := s.state.goto_state_map.filter (fun p => p.1 == pc)
  let rest := s.state.goto_state_map.filter (fun p => p.1 != pc)
  let g := here.foldl (fun acc p => guardt.disjoin acc p.2) s.state.guard
  { s with state := { s.state with guard := g, goto_state_map := rest } }

/-- Modelled from the spec: `symex_goto` is only declared in the slice.
§4.3(i) and §4.5: under a false guard only the transition happens; a
condition that simplifies to `false` falls through; `true` takes the
branch; a symbolic condition continues on the fall-through path under
`guard ∧ ¬cond` and saves the taken state under the target program
counter (unwinding and path exploration are outside the slice). -/
def symex_goto (ext : extt) (prog : List instructiont)
    (instruction : instructiont) (s : symext) : symext :=
  if s.state.guard.is_false then advance prog s
  else
    let new_guard := ext.simplify (ext.rename (ext.clean instruction.guard))
    if new_guard.is_false then advance prog s
    else if new_guard.is_true then
      let backwards := decide (instruction.goto_target ≤ s.state.source.pc)
      { s with state :=
          symex_transition prog s.state instruction.goto_target backwards }
    else
      let taken_guard := s.state.guard.add new_guard
      let st := { s.state with
                  guard := s.state.guard.add (.not_ new_guard),
                  goto_state_map := s.state.goto_state_map ++
                    [(instruction.goto_target, taken_guard)] }
      { s with state := symex_transition_next prog st }

/-- Modelled from the spec: `symex_end_of_function` is only declared in
the slice.  §4.6: pop the frame; the frame's local declarations are
dropped from the renamer state. -/
def symex_end_of_function (s : symext) : symext :=
  let fr := s.state.top
  let st := s.state.set_call_stack s.state.call_stack.tail
  { s with state := { st with dead_syms := fr.locals ++ st.dead_syms } }

/-- Modelled from the spec: `symex_dead` is only declared in the slice.
§4.3 dead: invalidate the renaming of the symbol. -/
def symex_dead (instruction : instructiont) (s : symext) : symext :=
  { s with state := { s.state with
      dead_syms := instruction.decl_sym :: s.state.dead_syms } }

/-- `symex_decl(statet &)` reads the declared symbol from the current
instruction and declares it. -/
def symex_decl_instr (instruction : instructiont) (s : symext) : symext :=
  symex_decl_symbol instruction.decl_sym s

/-- Modelled from the spec: `symex_start_thread` is only declared in the
slice.  §4.7: a new thread record with its own pc, a copy of the parent
guard, and atomic-section id 0 is appended; §4.3(i): skipped under a
false guard. -/
def symex_start_thread (instruction : instructiont) (s : symext) : symext :=
  if s.state.guard.is_false then s
  else
    { s with state := { s.state with
        threads := s.state.threads ++
          [{ pc := instruction.thread_target, atomic_section_id := 0,
             guard := s.state.guard, call_stack := [] }] } }

/-- Modelled from the spec: `symex_throw` is only declared in the slice;
the handler-stack propagation (§4.3 throw/catch) is outside the
modelled slice, and §4.3(i) skips it under a false guard. -/
def symex_throw (s : symext) : symext :=
  if s.state.guard.is_false then s else s

/-- Modelled from the spec: `symex_catch` is only declared in the slice;
the handler-stack bookkeeping (§4.3 throw/catch) is outside the
modelled slice, and §4.3(i) skips it under a false guard. -/
def symex_catch (s : symext) : symext :=
  if s.state.guard.is_false then s else s

/-- Modelled from the spec: `symex_other` is only declared in the slice;
its dedicated lowerings (§4.3 other) are outside the modelled slice. -/
def symex_other (s : symext) : symext :=
  s

/-- Modelled from the spec: `return_assignment` is only declared in the
slice; the return-value binding (§4.3 return) is outside the modelled
slice. -/
def return_assignment (s : symext) : symext :=
  s

/-- Modelled from the spec: `symex_assign` is only declared in the
slice.  §4.3 assign: append an assignment step of the renamed
right-hand side under the guard (lhs decomposition and SSA bumping are
outside the modelled slice). -/
def symex_assign (ext : extt) (instruction : instructiont) (s : symext) : symext :=
  let rhs := ext.rename (ext.clean instruction.assign_rhs)
  { s with target := s.target ++
      [.assignment s.state.guard.as_expr instruction.assign_lhs rhs
        s.state.source] }

/-- Modelled from the spec: `symex_function_call` is only declared in
the slice.  §4.6: push a new frame and move to the callee (function
resolution, locality and parameter assignments are outside the modelled
slice; the body is abstracted so the call advances past the call
site). -/
def symex_function_call (prog : List instructiont)
    (s : symext) : symext :=
  let st := s.state.set_call_stack ({} :: s.state.call_stack)
  { s with state := symex_transition_next prog st }

/-! ## The step dispatcher -/

/-- The per-instruction dispatch of `goto_symext::symex_step` (source
lines 734–875): the `switch` over the instruction type.  `none` models
the `unsupported_operation_exceptiont` thrown for
`NO_INSTRUCTION_TYPE`. -/
def symex_step_switch (ext : extt) (prog : List instructiont)
    (instruction : instructiont) (s : symext) : Option symext :=
  match instruction.itype with
  | .SKIP =>
    let s := if s.state.guard.is_false then s
             else { s with target := s.target ++
                     [.location s.state.guard.as_expr s.state.source] }
    some (advance prog s)
  | .END_FUNCTION =>
    some (advance prog (symex_end_of_function s))
  | .LOCATION =>
    let s := if s.state.guard.is_false then s
             else { s with target := s.target ++
                     [.location s.state.guard.as_expr s.state.source] }
    some (advance prog s)
  | .GOTO =>
    some (symex_goto ext prog instruction s)
  | .ASSUME =>
    let s := if s.state.guard.is_false then s
             else symex_assume ext s (ext.rename (ext.clean instruction.guard))
    some (advance prog s)
  | .ASSERT =>
    let s := if s.state.guard.is_false then s
             else
               let msg := if instruction.comment = "" then "assertion"
                          else instruction.comment
               vcc ext s (ext.clean instruction.guard) msg
    some (advance prog s)
  | .RETURN =>
    let s := if s.state.guard.is_false then s else return_assignment s
    some (advance prog s)
  | .ASSIGN =>
    let s := if s.state.guard.is_false then s else symex_assign ext instruction s
    some (advance prog s)
  | .FUNCTION_CALL =>
    if s.state.guard.is_false then some (advance prog s)
    else some (symex_function_call prog s)
  | .OTHER =>
    let s := if s.state.guard.is_false then s else symex_other s
    some (advance prog s)
  | .DECL =>
    let s := if s.state.guard.is_false then s else symex_decl_instr instruction s
    some (advance prog s)
  | .DEAD =>
    some (advance prog (symex_dead instruction s))
  | .START_THREAD =>
    some (advance prog (symex_start_thread instruction s))
  | .END_THREAD =>
    let s := if s.state.guard.is_false then s
             else { s with state := { s.state with
                     guard := s.state.guard.add .false_ } }
    some (advance prog s)
  | .ATOMIC_BEGIN =>
    some (advance prog (symex_atomic_begin s))
  | .ATOMIC_END =>
    some (advance prog (symex_atomic_end s))
  | .CATCH =>
    some (advance prog (symex_catch s))
  | .THROW =>
    some (advance prog (symex_throw s))
  | .NO_INSTRUCTION_TYPE =>
    none

/-- The slice of `symex_configt` read by the modelled driver. -/
structure symex_configt where
  max_depth : Nat := 0
  doing_path_exploration : Bool := false
  deriving DecidableEq

/-- `goto_symext::symex_step`: fetch the instruction, merge pending
goto-states (outside path exploration), cut the path beyond the depth
bound, count the step, then dispatch on the instruction type. -/
def symex_step (ext : extt) (cfg : symex_configt) (prog : List instructiont)
    (s : symext) : Option symext :=
  match inst_at prog s.state.source.pc with
  | none => none
  | some instruction =>
    let s := if !cfg.doing_path_exploration then merge_gotos s else s
    let s := if cfg.max_depth ≠ 0 && decide (s.state.depth > cfg.max_depth)
             then { s with state := { s.state with
                     guard := s.state.guard.add .false_ } }
             else s
    let s := { s with state := { s.state with depth := s.state.depth + 1 } }
    symex_step_switch ext prog instruction s

/-! ## Thread switching -/

/-- `switch_to_thread` (source lines 541–557): save the outgoing
thread's pc and atomic-section id, then make `thread_nb` current,
loading its pc and guard into the state. -/
def switch_to_thread (st : statet) (thread_nb : Nat) : statet :=
  let ts := update_thread st.threads st.source.thread_nr
    (fun th => { th with pc := st.source.pc,
                         atomic_section_id := st.atomic_section_id })
  let incoming := get_thread ts thread_nb
  { st with threads := ts,
            source := { st.source with thread_nr := thread_nb,
                                       pc := incoming.pc },
            guard := incoming.guard }

/-- `goto_symext::symex_threaded_step` (source lines 559–581): one
dispatcher step, then mirror the VCC statistics; unless symex pauses,
round-robin to the next thread when the call stack has emptied and a
next thread exists. -/
def symex_threaded_step (ext : extt) (cfg : symex_configt)
    (prog : List instructiont) (s : symext) : Option symext :=
  match symex_step ext cfg prog s with
  | none => none
  | some s =>
    let s := { s with total_vccs_out := s.state.total_vccs,
                      remaining_vccs_out := s.state.remaining_vccs }
    if s.should_pause_symex then some s
    else if s.state.call_stack.isEmpty &&
            decide (s.state.source.thread_nr + 1 < s.state.threads.length) then
      let t := s.state.source.thread_nr + 1
      let st := switch_to_thread s.state t
      some { s with state := symex_transition prog st st.source.pc false }
    else some s

/-! ## Helper lemmas (solver factory) -/

theorem set_prop_conv_time_limit_prop (opts : optionst) (s : solvert) :
    (set_prop_conv_time_limit opts s).prop = s.prop := by
  unfold set_prop_conv_time_limit
  split <;> rfl

theorem set_prop_conv_time_limit_prop_conv (opts : optionst) (s : solvert) :
    (set_prop_conv_time_limit opts s).prop_conv = s.prop_conv := by
  unfold set_prop_conv_time_limit
  split <;> rfl

/-! ## Claims about the solver façade -/

/-- C6: `get_solver` selects the back end by first match in the order
dimacs → refine → refine-strings → smt2 → default; in particular the
DIMACS dumper wins over refinement, and bit-vector refinement wins over
string refinement. -/
theorem get_solver_selection_order (opts : optionst) :
    (opts.dimacs = true → get_solver opts = get_dimacs opts) ∧
    (opts.dimacs = false → opts.refine = true →
      get_solver opts = get_bv_refinement opts) ∧
    (opts.dimacs = false → opts.refine = false → opts.refine_strings = true →
      get_solver opts = get_string_refinement opts) ∧
    (opts.dimacs = false → opts.refine = false → opts.refine_strings = false →
      opts.smt2 = true →
      get_solver opts = get_smt2 opts (get_smt2_solver_type opts)) ∧
    (opts.dimacs = false → opts.refine = false → opts.refine_strings = false →
      opts.smt2 = false → get_solver opts = .ok (get_default opts)) := by
  refine ⟨?_, ?_, ?_, ?_, ?_⟩ <;> intros <;> simp_all [get_solver]

theorem get_solver_selection_order_witness :
    get_solver { dimacs := true, refine := true } =
      get_dimacs { dimacs := true, refine := true } ∧
    get_solver { refine := true, refine_strings := true } =
      get_bv_refinement { refine := true, refine_strings := true } :=
  ⟨(get_solver_selection_order _).1 rfl,
   (get_solver_selection_order _).2.1 rfl rfl⟩

/-- C7 counterexample: with every option at its default (in particular
`beautify` unset and `sat-preprocessor` unset), the default solver's SAT
back end does NOT include the preprocessor, refuting "preprocessor if
and only if beautify is not requested". -/
theorem get_default_preprocessor_cex :
    get_solver ({} : optionst) = .ok (get_default {}) ∧
    ¬(((get_default ({} : optionst)).prop = some prop_kindt.satcheck) ↔
      ({} : optionst).beautify = false) := by
  exact ⟨rfl, by decide⟩

/-- C7 (amended): when none of dimacs/refine/refine-strings/smt2 is set,
`get_solver` returns the default bit-vector-over-SAT bundle, and its SAT
back end includes the preprocessor if and only if `beautify` is not
requested AND `sat-preprocessor` is enabled. -/
theorem get_default_preprocessor (opts : optionst)
    (h1 : opts.dimacs = false) (h2 : opts.refine = false)
    (h3 : opts.refine_strings = false) (h4 : opts.smt2 = false) :
    get_solver opts = .ok (get_default opts) ∧
    ((get_default opts).prop = some prop_kindt.satcheck ↔
      (opts.beautify = false ∧ opts.sat_preprocessor = true)) := by
  constructor
  · simp [get_solver, h1, h2, h3, h4]
  · unfold get_default
    rw [set_prop_conv_time_limit_prop]
    cases hb : opts.beautify <;> cases hs : opts.sat_preprocessor <;> simp

theorem get_default_preprocessor_witness :
    get_solver { sat_preprocessor := true } =
      .ok (get_default { sat_preprocessor := true }) ∧
    ((get_default { sat_preprocessor := true }).prop =
        some prop_kindt.satcheck ↔
      (({ sat_preprocessor := true } : optionst).beautify = false ∧
       ({ sat_preprocessor := true } : optionst).sat_preprocessor = true)) :=
  get_default_preprocessor _ rfl rfl rfl rfl

/-- C8 counterexample: with `smt2` set, the generic family and an empty
outfile, but `beautify` also set, the façade fails with the
beautification error, not with "required filename not provided". -/
theorem get_smt2_missing_outfile_cex :
    get_smt2_solver_type { smt2 := true, beautify := true } =
      smt2_solvert.GENERIC ∧
    ({ smt2 := true, beautify := true } : optionst).outfile = "" ∧
    get_solver { smt2 := true, beautify := true } =
      .error { message := "the chosen solver does not support beautification",
               option_name := "--beautify" } ∧
    ¬(({ message := "the chosen solver does not support beautification",
         option_name := "--beautify" } : invalid_command_line_argumentt) =
      { message := "required filename not provided",
        option_name := "--outfile",
        hint := "provide a filename with --outfile" }) := by
  refine ⟨rfl, rfl, rfl, by decide⟩

/-- C8 (amended): when the smt2 branch is actually selected (smt2 set
and none of dimacs/refine/refine-strings set), `beautify` is not set,
the solver family is generic and the outfile is empty, `get_solver`
fails with the invalid-command-line-argument error reporting that the
required filename was not provided. -/
theorem get_smt2_missing_outfile (opts : optionst)
    (h1 : opts.smt2 = true) (hd : opts.dimacs = false)
    (hr : opts.refine = false) (hrs : opts.refine_strings = false)
    (hb : opts.beautify = false)
    (hg : get_smt2_solver_type opts = .GENERIC) (ho : opts.outfile = "") :
    get_solver opts =
      .error { message := "required filename not provided",
               option_name := "--outfile",
               hint := "provide a filename with --outfile" } := by
  have hsel : get_solver opts = get_smt2 opts (get_smt2_solver_type opts) :=
    (get_solver_selection_order opts).2.2.2.1 hd hr hrs h1
  rw [hsel, hg]
  unfold get_smt2 no_beautification
  simp only [hb, ho, if_false, if_true, Bool.false_eq_true, ite_false, ite_true]
  rfl

theorem get_smt2_missing_outfile_witness :
    get_solver { smt2 := true } =
      .error { message := "required filename not provided",
               option_name := "--outfile",
               hint := "provide a filename with --outfile" } :=
  get_smt2_missing_outfile _ rfl rfl rfl rfl rfl rfl rfl

/-- C9: with `dimacs` set, the façade raises a configuration error when
`beautify`, `all-properties`, `cover`, or `incremental-check` is
present, and returns the DIMACS dumper bundle exactly when none of the
four is present. -/
theorem get_dimacs_gating (opts : optionst) (hd : opts.dimacs = true) :
    ((opts.beautify = true ∨ opts.all_properties = true ∨
      opts.cover_is_set = true ∨ opts.incremental_check_is_set = true) →
      ∃ e, get_solver opts = .error e) ∧
    (opts.beautify = false → opts.all_properties = false →
      opts.cover_is_set = false → opts.incremental_check_is_set = false →
      get_solver opts = .ok { prop_conv := .bv_dimacs opts.outfile,
                              prop := some .dimacs_cnf }) := by
  have hsel : get_solver opts = get_dimacs opts :=
    (get_solver_selection_order opts).1 hd
  rw [hsel]
  unfold get_dimacs no_beautification no_incremental_check
  constructor
  · rintro (h | h | h | h) <;> simp [h] <;>
      cases hb : opts.beautify <;>
      cases ha : opts.all_properties <;>
      cases hc : opts.cover_is_set <;> simp [hb, ha, hc] <;> exact ⟨_, rfl⟩
  · intro hb ha hc hi
    simp only [hb, ha, hc, hi, Bool.false_eq_true, ite_false]
    rfl

theorem get_dimacs_gating_witness :
    (∃ e, get_solver { dimacs := true, beautify := true } = .error e) ∧
    get_solver { dimacs := true } =
      .ok { prop_conv := .bv_dimacs "", prop := some .dimacs_cnf } :=
  ⟨(get_dimacs_gating { dimacs := true, beautify := true } rfl).1 (.inl rfl),
   (get_dimacs_gating { dimacs := true } rfl).2 rfl rfl rfl rfl⟩

/-! ## Claims about `symex_assume` -/

theorem symex_atomic_end_target (s : symext) :
    (symex_atomic_end s).target = s.target := rfl

theorem symex_atomic_end_guard (s : symext) :
    (symex_atomic_end s).state.guard = s.state.guard := rfl

theorem atomic_end_fixup_target (s1 : symext) :
    (atomic_end_fixup s1).target = s1.target := by
  unfold atomic_end_fixup
  split <;> rfl

theorem atomic_end_fixup_guard (s1 : symext) :
    (atomic_end_fixup s1).state.guard = s1.state.guard := by
  unfold atomic_end_fixup
  split <;> rfl

theorem atomic_end_fixup_zero (s1 : symext)
    (h : s1.state.guard.is_false = true) :
    (atomic_end_fixup s1).state.atomic_section_id = 0 := by
  unfold atomic_end_fixup
  by_cases hz : s1.state.atomic_section_id = 0
  · simp [hz, symex_atomic_end]
  · simp [hz, h, symex_atomic_end]

/-- C2: an assume whose condition does not simplify to `true` appends an
assumption step `(guard, e)` when the state has exactly one thread, and
with more than one thread instead conjoins the simplified condition into
the guard, appending no step. -/
theorem symex_assume_single_vs_multi (ext : extt) (s : symext) (cond : exprt)
    (h : (ext.simplify cond).is_true = false) :
    (s.state.threads.length = 1 →
      (symex_assume ext s cond).target = s.target ++
        [.assumption s.state.guard.as_expr
          (s.state.guard.guard_expr (ext.simplify cond)) s.state.source] ∧
      (symex_assume ext s cond).state.guard = s.state.guard) ∧
    (1 < s.state.threads.length →
      (symex_assume ext s cond).target = s.target ∧
      (symex_assume ext s cond).state.guard =
        s.state.guard.add (ext.simplify cond)) := by
  unfold symex_assume
  simp only [h, Bool.false_eq_true, ite_false]
  constructor
  · intro h1
    simp only [h1, ite_true]
    rw [atomic_end_fixup_target, atomic_end_fixup_guard]
    exact ⟨rfl, rfl⟩
  · intro h2
    have h1 : s.state.threads.length ≠ 1 := by omega
    simp only [h1, ite_false]
    rw [atomic_end_fixup_target, atomic_end_fixup_guard]
    exact ⟨rfl, rfl⟩

theorem symex_assume_single_vs_multi_witness :
    (({ state := { threads := [{}] } } : symext).state.threads.length = 1 →
      (symex_assume ⟨fun e => e, fun e => e, fun e => e⟩
          { state := { threads := [{}] } } (.sym 0)).target =
        ({ state := { threads := [{}] } } : symext).target ++
          [.assumption
            ({ state := { threads := [{}] } } : symext).state.guard.as_expr
            (({ state := { threads := [{}] } } :
                symext).state.guard.guard_expr
              ((⟨fun e => e, fun e => e, fun e => e⟩ : extt).simplify (.sym 0)))
            ({ state := { threads := [{}] } } : symext).state.source] ∧
      (symex_assume ⟨fun e => e, fun e => e, fun e => e⟩
          { state := { threads := [{}] } } (.sym 0)).state.guard =
        ({ state := { threads := [{}] } } : symext).state.guard) ∧
    (1 < ({ state := { threads := [{}] } } : symext).state.threads.length →
      (symex_assume ⟨fun e => e, fun e => e, fun e => e⟩
          { state := { threads := [{}] } } (.sym 0)).target =
        ({ state := { threads := [{}] } } : symext).target ∧
      (symex_assume ⟨fun e => e, fun e => e, fun e => e⟩
          { state := { threads := [{}] } } (.sym 0)).state.guard =
        ({ state := { threads := [{}] } } : symext).state.guard.add
          ((⟨fun e => e, fun e => e, fun e => e⟩ : extt).simplify (.sym 0))) :=
  symex_assume_single_vs_multi ⟨fun e => e, fun e => e, fun e => e⟩
    { state := { threads := [{}] } } (.sym 0) rfl

/-- C10: an assume whose processing leaves the state with a false guard
inside an atomic section ends the atomic section; in particular
`symex_assume` preserves the invariant that the atomic-section id is
zero on every false-guard state. -/
theorem symex_assume_atomic_section_invariant (ext : extt) (s : symext)
    (cond : exprt) :
    ((ext.simplify cond).is_true = false →
      (symex_assume ext s cond).state.guard.is_false = true →
      (symex_assume ext s cond).state.atomic_section_id = 0) ∧
    ((s.state.guard.is_false = true → s.state.atomic_section_id = 0) →
      (symex_assume ext s cond).state.guard.is_false = true →
      (symex_assume ext s cond).state.atomic_section_id = 0) := by
  constructor
  · intro hf hg
    revert hg
    unfold symex_assume
    simp only [hf, Bool.false_eq_true, ite_false]
    intro hg
    rw [atomic_end_fixup_guard] at hg
    exact atomic_end_fixup_zero _ hg
  · intro hinv hg
    revert hg
    unfold symex_assume
    by_cases hf : (ext.simplify cond).is_true = true
    · simp only [hf, ite_true]
      exact hinv
    · have hf' : (ext.simplify cond).is_true = false := by
        cases hx : (ext.simplify cond).is_true
        · rfl
        · exact absurd hx hf
      simp only [hf', Bool.false_eq_true, ite_false]
      intro hg
      rw [atomic_end_fixup_guard] at hg
      exact atomic_end_fixup_zero _ hg

theorem symex_assume_atomic_section_invariant_witness :
    (symex_assume ⟨fun e => e, fun e => e, fun e => e⟩
      { state := { guard := [.false_], atomic_section_id := 7,
                   threads := [{}, {}] } }
      (.sym 0)).state.atomic_section_id = 0 :=
  (symex_assume_atomic_section_invariant
      ⟨fun e => e, fun e => e, fun e => e⟩
      { state := { guard := [.false_], atomic_section_id := 7,
                   threads := [{}, {}] } }
      (.sym 0)).1 rfl rfl

/-! ## Claims about `vcc` -/

/-- Discriminator for assertion steps of the equation. -/
def is_assertion_step : ssa_stept → Bool
  | .assertion _ _ _ _ => true
  | _ => false

theorem symex_decl_symbol_facts (v : Nat) (s : symext) :
    (symex_decl_symbol v s).state.guard = s.state.guard ∧
    (symex_decl_symbol v s).state.source = s.state.source ∧
    (symex_decl_symbol v s).state.total_vccs = s.state.total_vccs ∧
    (symex_decl_symbol v s).state.remaining_vccs = s.state.remaining_vccs ∧
    (symex_decl_symbol v s).target =
      s.target ++ [.decl s.state.guard.as_expr v s.state.source] := by
  unfold symex_decl_symbol statet.set_top statet.set_call_stack
  dsimp only
  split <;> exact ⟨rfl, rfl, rfl, rfl, rfl⟩

theorem rewrite_quantifiers_fst (e : exprt) (s s' : symext) :
    (rewrite_quantifiers e s).1 = (rewrite_quantifiers e s').1 := by
  induction e generalizing s s' with
  | forall_ v body ih =>
    simp only [rewrite_quantifiers]
    exact ih _ _
  | or_ a b iha ihb =>
    simp only [rewrite_quantifiers]
    rw [iha s s',
      ihb (rewrite_quantifiers a s).2 (rewrite_quantifiers a s').2]
  | and_ a b iha ihb =>
    simp only [rewrite_quantifiers]
    rw [iha s s',
      ihb (rewrite_quantifiers a s).2 (rewrite_quantifiers a s').2]
  | _ => rfl

theorem rewrite_quantifiers_snd (e : exprt) (s : symext) :
    (rewrite_quantifiers e s).2.state.guard = s.state.guard ∧
    (rewrite_quantifiers e s).2.state.source = s.state.source ∧
    (rewrite_quantifiers e s).2.state.total_vccs = s.state.total_vccs ∧
    (rewrite_quantifiers e s).2.state.remaining_vccs =
      s.state.remaining_vccs ∧
    ∃ pre, (rewrite_quantifiers e s).2.target = s.target ++ pre ∧
      ∀ x ∈ pre, is_assertion_step x = false := by
  induction e generalizing s with
  | forall_ v body ih =>
    obtain ⟨hg, hsrc, htot, hrem, hd⟩ := symex_decl_symbol_facts v s
    obtain ⟨hg', hsrc', htot', hrem', pre, htgt, hpre⟩ :=
      ih (symex_decl_symbol v s)
    refine ⟨?_, ?_, ?_, ?_,
      [ssa_stept.decl s.state.guard.as_expr v s.state.source] ++ pre, ?_, ?_⟩
    · simpa only [rewrite_quantifiers, hg] using hg'
    · simpa only [rewrite_quantifiers, hsrc] using hsrc'
    · simpa only [rewrite_quantifiers, htot] using htot'
    · simpa only [rewrite_quantifiers, hrem] using hrem'
    · simp only [rewrite_quantifiers]
      rw [htgt, hd, List.append_assoc]
    · intro x hx
      rcases List.mem_append.1 hx with hx | hx
      · rcases List.mem_singleton.1 hx with rfl
        rfl
      · exact hpre x hx
  | or_ a b iha ihb =>
    obtain ⟨hg1, hsrc1, htot1, hrem1, pre1, htgt1, hpre1⟩ := iha s
    obtain ⟨hg2, hsrc2, htot2, hrem2, pre2, htgt2, hpre2⟩ :=
      ihb (rewrite_quantifiers a s).2
    refine ⟨?_, ?_, ?_, ?_, pre1 ++ pre2, ?_, ?_⟩
    · simp only [rewrite_quantifiers]; rw [hg2, hg1]
    · simp only [rewrite_quantifiers]; rw [hsrc2, hsrc1]
    · simp only [rewrite_quantifiers]; rw [htot2, htot1]
    · simp only [rewrite_quantifiers]; rw [hrem2, hrem1]
    · simp only [rewrite_quantifiers]
      rw [htgt2, htgt1, List.append_assoc]
    · intro x hx
      rcases List.mem_append.1 hx with hx | hx
      · exact hpre1 x hx
      · exact hpre2 x hx
  | and_ a b iha ihb =>
    obtain ⟨hg1, hsrc1, htot1, hrem1, pre1, htgt1, hpre1⟩ := iha s
    obtain ⟨hg2, hsrc2, htot2, hrem2, pre2, htgt2, hpre2⟩ :=
      ihb (rewrite_quantifiers a s).2
    refine ⟨?_, ?_, ?_, ?_, pre1 ++ pre2, ?_, ?_⟩
    · simp only [rewrite_quantifiers]; rw [hg2, hg1]
    · simp only [rewrite_quantifiers]; rw [hsrc2, hsrc1]
    · simp only [rewrite_quantifiers]; rw [htot2, htot1]
    · simp only [rewrite_quantifiers]; rw [hrem2, hrem1]
    · simp only [rewrite_quantifiers]
      rw [htgt2, htgt1, List.append_assoc]
    · intro x hx
      rcases List.mem_append.1 hx with hx | hx
      · exact hpre1 x hx
      · exact hpre2 x hx
  | _ =>
    exact ⟨rfl, rfl, rfl, rfl, [], by simp [rewrite_quantifiers], by simp⟩

theorem vcc_quant_phase_fst (ext : extt) (e : exprt) (s s' : symext) :
    (vcc_quant_phase ext s e).1 = (vcc_quant_phase ext s' e).1 := by
  unfold vcc_quant_phase
  split
  · exact rewrite_quantifiers_fst _ _ _
  · rfl

theorem vcc_quant_phase_snd (ext : extt) (e : exprt) (s : symext) :
    (vcc_quant_phase ext s e).2.state.guard = s.state.guard ∧
    (vcc_quant_phase ext s e).2.state.source = s.state.source ∧
    (vcc_quant_phase ext s e).2.state.total_vccs = s.state.total_vccs ∧
    (vcc_quant_phase ext s e).2.state.remaining_vccs =
      s.state.remaining_vccs ∧
    ∃ pre, (vcc_quant_phase ext s e).2.target = s.target ++ pre ∧
      ∀ x ∈ pre, is_assertion_step x = false := by
  unfold vcc_quant_phase
  split
  · exact rewrite_quantifiers_snd _ _
  · exact ⟨rfl, rfl, rfl, rfl, [], by simp, by simp⟩

theorem vcc_body_facts (ext : extt) (s0 : symext) (e : exprt)
    (msg : String) :
    (vcc_body ext s0 e msg).state.total_vccs = s0.state.total_vccs ∧
    ((vcc_cond ext s0 e).is_true = true →
      (vcc_body ext s0 e msg).state.remaining_vccs =
        s0.state.remaining_vccs ∧
      (vcc_body ext s0 e msg).target.filter is_assertion_step =
        s0.target.filter is_assertion_step) ∧
    ((vcc_cond ext s0 e).is_true = false →
      (vcc_body ext s0 e msg).state.remaining_vccs =
        s0.state.remaining_vccs + 1 ∧
      ∃ pre, (∀ x ∈ pre, is_assertion_step x = false) ∧
        (vcc_body ext s0 e msg).target = s0.target ++ pre ++
          [.assertion s0.state.guard.as_expr
            (s0.state.guard.guard_expr (vcc_cond ext s0 e)) msg
            s0.state.source]) := by
  have hc : ext.simplify (ext.rename (vcc_quant_phase ext s0 e).1) =
      vcc_cond ext s0 e := rfl
  obtain ⟨hg, hsrc, htot, hrem, pre, htgt, hpre⟩ :=
    vcc_quant_phase_snd ext e s0
  unfold vcc_body
  dsimp only
  rw [hc]
  by_cases hT : (vcc_cond ext s0 e).is_true = true
  · simp only [hT, ite_true]
    have hnil : pre.filter is_assertion_step = [] :=
      List.filter_eq_nil_iff.mpr (fun a ha => by simp [hpre a ha])
    refine ⟨htot, fun _ => ⟨hrem, ?_⟩, fun hF => absurd hF (by simp)⟩
    rw [htgt, List.filter_append, hnil, List.append_nil]
  · have hF : (vcc_cond ext s0 e).is_true = false := by
      cases hx : (vcc_cond ext s0 e).is_true
      · rfl
      · exact absurd hx hT
    simp only [hF, Bool.false_eq_true, ite_false]
    refine ⟨htot, fun hx => absurd hx (by simp), fun _ => ⟨?_, pre, hpre, ?_⟩⟩
    · simp only [hrem]
    · simp only [htgt, hg, hsrc, List.append_assoc]

/-- C3: `vcc` always increments the total VCC counter; when the
condition (after the quantifier phase, renaming and simplification) is
literally `true` the remaining counter is untouched and no assertion
step is emitted; otherwise the remaining counter is incremented and the
assertion step `guard ⇒ e` with the message and source is appended. -/
theorem vcc_counting_and_emission (ext : extt) (s : symext) (e : exprt)
    (msg : String) :
    (vcc ext s e msg).state.total_vccs = s.state.total_vccs + 1 ∧
    ((vcc_cond ext s e).is_true = true →
      (vcc ext s e msg).state.remaining_vccs = s.state.remaining_vccs ∧
      (vcc ext s e msg).target.filter is_assertion_step =
        s.target.filter is_assertion_step) ∧
    ((vcc_cond ext s e).is_true = false →
      (vcc ext s e msg).state.remaining_vccs = s.state.remaining_vccs + 1 ∧
      ∃ pre, (∀ x ∈ pre, is_assertion_step x = false) ∧
        (vcc ext s e msg).target = s.target ++ pre ++
          [.assertion s.state.guard.as_expr
            (s.state.guard.guard_expr (vcc_cond ext s e)) msg
            s.state.source]) := by
  obtain ⟨htot', hT, hF⟩ :=
    vcc_body_facts ext
      { s with
        state := { s.state with total_vccs := s.state.total_vccs + 1 },
        path_segment_vccs := s.path_segment_vccs + 1 }
      e msg
  have hind :
      vcc_cond ext
        { s with
          state := { s.state with total_vccs := s.state.total_vccs + 1 },
          path_segment_vccs := s.path_segment_vccs + 1 } e =
      vcc_cond ext s e := by
    unfold vcc_cond
    rw [vcc_quant_phase_fst ext e _ s]
  rw [hind] at hT hF
  exact ⟨htot', hT, hF⟩

theorem vcc_counting_and_emission_witness :
    ((vcc ⟨fun x => x, fun x => x, fun x => x⟩ {} (.sym 0)
        "m").state.total_vccs = ({} : symext).state.total_vccs + 1 ∧
      (vcc ⟨fun x => x, fun x => x, fun x => x⟩ {} (.sym 0)
        "m").state.remaining_vccs =
        ({} : symext).state.remaining_vccs + 1) ∧
    ((vcc ⟨fun x => x, fun x => x, fun x => x⟩ {} exprt.true_
        "m").state.total_vccs = ({} : symext).state.total_vccs + 1 ∧
      (vcc ⟨fun x => x, fun x => x, fun x => x⟩ {} exprt.true_
        "m").state.remaining_vccs = ({} : symext).state.remaining_vccs) :=
  ⟨⟨(vcc_counting_and_emission ⟨fun x => x, fun x => x, fun x => x⟩ {}
      (.sym 0) "m").1,
    ((vcc_counting_and_emission ⟨fun x => x, fun x => x, fun x => x⟩ {}
      (.sym 0) "m").2.2 rfl).1⟩,
   ⟨(vcc_counting_and_emission ⟨fun x => x, fun x => x, fun x => x⟩ {}
      exprt.true_ "m").1,
    ((vcc_counting_and_emission ⟨fun x => x, fun x => x, fun x => x⟩ {}
      exprt.true_ "m").2.1 rfl).1⟩⟩

/-! ## Claims about `symex_transition` (loop-counter reset) -/

theorem assoc_get_set_self (l : List ((Nat × Nat) × Nat)) (k : Nat × Nat)
    (v : Nat) : assoc_get (assoc_set l k v) k = some v := by
  induction l with
  | nil => simp [assoc_set, assoc_get]
  | cons hd tl ih =>
    cases hd with
    | mk k0 v0 =>
      by_cases h : k0 = k
      · simp [assoc_set, assoc_get, h]
      · simp [assoc_set, assoc_get, h, ih]

theorem assoc_get_set_ne (l : List ((Nat × Nat) × Nat)) (k k' : Nat × Nat)
    (v : Nat) (h : k' ≠ k) :
    assoc_get (assoc_set l k' v) k = assoc_get l k := by
  induction l with
  | nil => simp [assoc_set, assoc_get, h]
  | cons hd tl ih =>
    cases hd with
    | mk k0 v0 =>
      by_cases h1 : k0 = k'
      · subst h1
        simp [assoc_set, assoc_get, h]
      · by_cases h2 : k0 = k <;>
          simp [assoc_set, assoc_get, h1, h2, ih, Ne.symm h]

theorem foldl_set_loop_preserve (p : edget → Bool) (fid : Nat)
    (edges : List edget) (fr : framet) (k : Nat × Nat)
    (h : assoc_get fr.loop_iterations k = some 0) :
    assoc_get
      ((edges.foldl
        (fun f i_e => if p i_e
          then f.set_loop (fid, i_e.location_number) 0 else f)
        fr).loop_iterations) k = some 0 := by
  induction edges generalizing fr with
  | nil => exact h
  | cons e es ih =>
    simp only [List.foldl_cons]
    by_cases hp : p e = true
    · apply ih
      by_cases hk : (fid, e.location_number) = k
      · subst hk
        simp [hp, framet.set_loop, assoc_get_set_self]
      · simp [hp, framet.set_loop, assoc_get_set_ne _ _ _ _ hk, h]
    · simp only [hp, Bool.false_eq_true, ite_false]
      exact ih fr h

theorem foldl_set_loop_hit (p : edget → Bool) (fid : Nat)
    (edges : List edget) (fr : framet) (k : Nat × Nat) (e : edget)
    (he : e ∈ edges) (hp : p e = true)
    (hk : (fid, e.location_number) = k) :
    assoc_get
      ((edges.foldl
        (fun f i_e => if p i_e
          then f.set_loop (fid, i_e.location_number) 0 else f)
        fr).loop_iterations) k = some 0 := by
  induction edges generalizing fr with
  | nil => cases he
  | cons e0 es ih =>
    rcases List.mem_cons.mp he with rfl | hmem
    · simp only [List.foldl_cons, hp, ite_true]
      apply foldl_set_loop_preserve
      rw [← hk]
      simp [framet.set_loop, assoc_get_set_self]
    · simp only [List.foldl_cons]
      exact ih _ hmem

theorem get_thread_default (ts : List threadt) (i : Nat)
    (h : ts.length ≤ i) : get_thread ts i = {} := by
  induction ts generalizing i with
  | nil => cases i <;> rfl
  | cons t ts ih =>
    cases i with
    | zero => simp at h
    | succ n => exact ih n (by simpa using h)

theorem get_thread_update_self (ts : List threadt) (i : Nat)
    (f : threadt → threadt) (h : i < ts.length) :
    get_thread (update_thread ts i f) i = f (get_thread ts i) := by
  induction ts generalizing i with
  | nil => simp at h
  | cons t ts ih =>
    cases i with
    | zero => rfl
    | succ n => exact ih n (by simpa using h)

theorem thread_nr_lt_of_stack (st : statet)
    (hcs : st.call_stack.isEmpty = false) :
    st.source.thread_nr < st.threads.length := by
  by_contra h
  push_neg at h
  have : st.call_stack = [] := by
    unfold statet.call_stack
    rw [get_thread_default st.threads st.source.thread_nr h]
  rw [this] at hcs
  exact absurd hcs (by simp)

theorem set_call_stack_call_stack (st : statet) (cs : List framet)
    (h : st.source.thread_nr < st.threads.length) :
    (st.set_call_stack cs).call_stack = cs := by
  unfold statet.set_call_stack statet.call_stack
  dsimp only
  rw [get_thread_update_self _ _ _ h]

/-- C5 counterexample: a backwards goto arriving from a location EQUAL
to the back edge's source does not reset the loop counter (the source
requires the origin to be strictly greater).  The program has a back
edge from location 5 into location 3; the state sits at location 5 with
the loop counter at 3; transitioning backwards to 3 leaves it at 3. -/
def cex5_prog : List instructiont :=
  [{}, {}, {},
   { incoming_edges := [{ is_goto := true, is_backwards := true,
                          location_number := 5 }] }]

/-- C5 counterexample state: at pc 5, one thread, one frame whose loop
counter for the back edge at location 5 is 3. -/
def cex5_state : statet :=
  { source := { function_id := 0, pc := 5, thread_nr := 0 },
    threads := [{ call_stack := [{ loop_iterations := [((0, 5), 3)] }] }] }

theorem symex_transition_loop_reset_cex :
    ({ is_goto := true, is_backwards := true, location_number := 5 } :
        edget) ∈ incoming_edges_at cex5_prog 3 ∧
    cex5_state.source.pc ≥ 5 ∧
    cex5_state.call_stack.isEmpty = false ∧
    ¬(assoc_get
        (symex_transition cex5_prog cex5_state 3 true).top.loop_iterations
        (0, 5) = some 0) := by
  refine ⟨by decide, by decide, by decide, by decide⟩

/-- C5 (amended): on a transition to an instruction with an incoming
backwards-goto edge, the loop counter of that edge's loop in the top
frame is reset to zero whenever the transition is not a backwards goto,
or it is a backwards goto arriving from a location STRICTLY greater
than the edge's source. -/
theorem symex_transition_loop_reset (prog : List instructiont)
    (st : statet) (tgt : Nat) (b : Bool) (i_e : edget)
    (hmem : i_e ∈ incoming_edges_at prog tgt)
    (hgoto : i_e.is_goto = true) (hback : i_e.is_backwards = true)
    (hcond : b = false ∨ i_e.location_number < st.source.pc)
    (hcs : st.call_stack.isEmpty = false) :
    assoc_get
      (symex_transition prog st tgt b).top.loop_iterations
      (st.source.function_id, i_e.location_number) = some 0 := by
  have hlt := thread_nr_lt_of_stack st hcs
  unfold symex_transition
  simp only [hcs, Bool.false_eq_true, ite_false]
  have hcall :
      ∀ fr, (statet.set_top st fr).call_stack = fr :: st.call_stack.tail :=
    fun fr => set_call_stack_call_stack st _ hlt
  have htop : ∀ fr, (statet.set_top st fr).top = fr := by
    intro fr
    unfold statet.top
    rw [hcall fr]
    rfl
  rw [show ∀ (x : statet) (t : Nat),
      ({ x with source := { x.source with pc := t } } : statet).top =
        x.top from fun x t => rfl]
  rw [htop]
  apply foldl_set_loop_hit _ _ _ _ _ i_e hmem _ rfl
  simp only [hgoto, hback, Bool.true_and]
  rcases hcond with rfl | hlt'
  · rfl
  · simp [hlt']

/-- C5 amended-claim state for the witness: at pc 6, strictly past the
back edge at location 5, with the loop counter at 3. -/
def wit5_state : statet :=
  { source := { function_id := 0, pc := 6, thread_nr := 0 },
    threads := [{ call_stack := [{ loop_iterations := [((0, 5), 3)] }] }] }

theorem symex_transition_loop_reset_witness :
    assoc_get
      (symex_transition cex5_prog wit5_state 3 true).top.loop_iterations
      (wit5_state.source.function_id, 5) = some 0 :=
  symex_transition_loop_reset cex5_prog wit5_state 3 true
    { is_goto := true, is_backwards := true, location_number := 5 }
    (by decide) rfl rfl (Or.inr (by decide)) rfl

/-! ## Claims about the step dispatcher under a false guard -/

theorem update_thread_oor (ts : List threadt) (i : Nat)
    (f : threadt → threadt) (h : ts.length ≤ i) :
    update_thread ts i f = ts := by
  induction ts generalizing i with
  | nil => rfl
  | cons t ts ih =>
    cases i with
    | zero => simp at h
    | succ n => simp [update_thread, ih n (by simpa using h)]

theorem symex_end_of_function_call_stack (s : symext) :
    (symex_end_of_function s).state.call_stack =
      s.state.call_stack.tail := by
  unfold symex_end_of_function
  by_cases h : s.state.source.thread_nr < s.state.threads.length
  · show (statet.set_call_stack _ _).call_stack = _
    rw [set_call_stack_call_stack _ _ h]
  · push_neg at h
    have h0 : s.state.call_stack = [] := by
      unfold statet.call_stack
      rw [get_thread_default _ _ h]
    show (statet.set_call_stack _ _).call_stack = _
    unfold statet.set_call_stack statet.call_stack
    dsimp only
    rw [update_thread_oor _ _ _ h]
    rw [show (get_thread s.state.threads s.state.source.thread_nr).call_stack
        = s.state.call_stack from rfl, h0]
    rfl

/-- C1: when the guard is false, every instruction kind except
`end_function`, `dead` and `atomic_end` is dispatched as a pure
program-counter transition (no emission, no state update besides the
transition); the three exceptions still run exactly their bookkeeping
(frame teardown, renaming invalidation, atomic-section clearing), and
none of them emits a step.  (`NO_INSTRUCTION_TYPE` is not an
instruction kind; it raises the unsupported-operation error.) -/
theorem symex_step_false_guard (ext : extt) (prog : List instructiont)
    (instruction : instructiont) (s : symext)
    (h : s.state.guard.is_false = true) :
    (instruction.itype ≠ .END_FUNCTION → instruction.itype ≠ .DEAD →
     instruction.itype ≠ .ATOMIC_END →
     instruction.itype ≠ .NO_INSTRUCTION_TYPE →
      symex_step_switch ext prog instruction s = some (advance prog s)) ∧
    (instruction.itype = .END_FUNCTION →
      symex_step_switch ext prog instruction s =
        some (advance prog (symex_end_of_function s)) ∧
      (symex_end_of_function s).target = s.target ∧
      (symex_end_of_function s).state.call_stack =
        s.state.call_stack.tail) ∧
    (instruction.itype = .DEAD →
      symex_step_switch ext prog instruction s =
        some (advance prog (symex_dead instruction s)) ∧
      (symex_dead instruction s).target = s.target ∧
      (symex_dead instruction s).state.dead_syms =
        instruction.decl_sym :: s.state.dead_syms) ∧
    (instruction.itype = .ATOMIC_END →
      symex_step_switch ext prog instruction s =
        some (advance prog (symex_atomic_end s)) ∧
      (symex_atomic_end s).target = s.target ∧
      (symex_atomic_end s).state.atomic_section_id = 0) := by
  refine ⟨?_, ?_, ?_, ?_⟩
  · intro h1 h2 h3 h4
    cases hty : instruction.itype
    all_goals
      first
        | exact absurd hty h1
        | exact absurd hty h2
        | exact absurd hty h3
        | exact absurd hty h4
        | simp [symex_step_switch, hty, symex_goto, symex_start_thread,
            symex_atomic_begin, symex_catch, symex_throw, h]
  · intro hty
    exact ⟨by simp [symex_step_switch, hty], rfl,
      symex_end_of_function_call_stack s⟩
  · intro hty
    exact ⟨by simp [symex_step_switch, hty], rfl, rfl⟩
  · intro hty
    exact ⟨by simp [symex_step_switch, hty], rfl, rfl⟩

theorem symex_step_false_guard_witness :
    symex_step_switch ⟨fun x => x, fun x => x, fun x => x⟩ [{}]
      { itype := .ASSIGN } { state := { guard := [.false_] } } =
      some (advance [{}] { state := { guard := [.false_] } }) :=
  (symex_step_false_guard ⟨fun x => x, fun x => x, fun x => x⟩ [{}]
      { itype := .ASSIGN } { state := { guard := [.false_] } } rfl).1
    (by decide) (by decide) (by decide) (by decide)

/-! ## Claims about thread switching -/

theorem get_thread_update_ne (ts : List threadt) (i j : Nat)
    (f : threadt → threadt) (h : i ≠ j) :
    get_thread (update_thread ts i f) j = get_thread ts j := by
  induction ts generalizing i j with
  | nil => rfl
  | cons t ts ih =>
    cases i with
    | zero =>
      cases j with
      | zero => exact absurd rfl h
      | succ m => rfl
    | succ n =>
      cases j with
      | zero => rfl
      | succ m => exact ih n m (fun hh => h (by rw [hh]))

theorem symex_transition_fields (prog : List instructiont) (st : statet)
    (tgt : Nat) (b : Bool) :
    (symex_transition prog st tgt b).guard = st.guard ∧
    (symex_transition prog st tgt b).atomic_section_id =
      st.atomic_section_id ∧
    (symex_transition prog st tgt b).source.thread_nr =
      st.source.thread_nr ∧
    (symex_transition prog st tgt b).source.function_id =
      st.source.function_id ∧
    (symex_transition prog st tgt b).source.pc = tgt := by
  unfold symex_transition statet.set_top statet.set_call_stack
  dsimp only
  split <;> exact ⟨rfl, rfl, rfl, rfl, rfl⟩

theorem symex_transition_threads_other (prog : List instructiont)
    (st : statet) (tgt : Nat) (b : Bool) (j : Nat)
    (h : st.source.thread_nr ≠ j) :
    get_thread (symex_transition prog st tgt b).threads j =
      get_thread st.threads j := by
  unfold symex_transition statet.set_top statet.set_call_stack
  dsimp only
  split
  · rfl
  · exact get_thread_update_ne _ _ _ _ h

/-- C4 counterexample: a concrete run of `symex_threaded_step` in which
thread 0's call stack empties (via `end_function`) and control switches
to thread 1, whose stored atomic-section id is 7.  Modelled from the
spec for the handlers missing from the slice; the switch itself (source
lines 541–557) loads only the incoming pc and guard: the state's
atomic-section id stays 0 instead of being restored to 7. -/
def ext_id : extt := ⟨fun e => e, fun e => e, fun e => e⟩

/-- Single-instruction program for the thread-switch scenario. -/
def cex4_prog : List instructiont := [{ itype := .END_FUNCTION }]

/-- Thread-switch scenario: thread 0 about to finish its last frame;
thread 1 waiting at pc 9 with atomic-section id 7 and guard `sym 3`. -/
def cex4_state : symext :=
  { state := { source := { function_id := 0, pc := 0, thread_nr := 0 },
               guard := [],
               threads :=
                 [{ pc := 0, atomic_section_id := 0, guard := [],
                    call_stack := [{}] },
                  { pc := 9, atomic_section_id := 7, guard := [.sym 3],
                    call_stack := [] }],
               atomic_section_id := 0 } }

theorem switch_to_thread_no_atomic_restore_cex :
    (symex_threaded_step ext_id {} cex4_prog cex4_state).map
        (fun x => x.state.source.thread_nr) = some 1 ∧
    (get_thread cex4_state.state.threads 1).atomic_section_id = 7 ∧
    (symex_threaded_step ext_id {} cex4_prog cex4_state).map
        (fun x => x.state.atomic_section_id) = some 0 ∧
    ¬((symex_threaded_step ext_id {} cex4_prog cex4_state).map
        (fun x => x.state.atomic_section_id) = some 7) := by
  refine ⟨by decide, by decide, by decide, by decide⟩

/-- C4 (amended): after a symex step that empties the current thread's
call stack while a next thread exists, control switches to that thread:
the outgoing thread's pc and atomic-section id are saved into its
thread record, and the incoming thread's pc and guard are loaded into
the state; the state's atomic-section id is NOT restored from the
incoming thread record (it keeps the outgoing thread's value, which was
saved). -/
theorem symex_threaded_step_switches (ext : extt) (cfg : symex_configt)
    (prog : List instructiont) (s s1 : symext)
    (hstep : symex_step ext cfg prog s = some s1)
    (hpause : s1.should_pause_symex = false)
    (hempty : s1.state.call_stack.isEmpty = true)
    (hnext : s1.state.source.thread_nr + 1 < s1.state.threads.length) :
    ∃ s', symex_threaded_step ext cfg prog s = some s' ∧
      s'.state.source.thread_nr = s1.state.source.thread_nr + 1 ∧
      s'.state.source.pc =
        (get_thread s1.state.threads (s1.state.source.thread_nr + 1)).pc ∧
      s'.state.guard =
        (get_thread s1.state.threads
          (s1.state.source.thread_nr + 1)).guard ∧
      (get_thread s'.state.threads s1.state.source.thread_nr).pc =
        s1.state.source.pc ∧
      (get_thread s'.state.threads
        s1.state.source.thread_nr).atomic_section_id =
        s1.state.atomic_section_id ∧
      s'.state.atomic_section_id = s1.state.atomic_section_id ∧
      s'.target = s1.target := by
  have htlt : s1.state.source.thread_nr < s1.state.threads.length := by
    omega
  unfold symex_threaded_step
  rw [hstep]
  dsimp only
  rw [hpause]
  simp only [Bool.false_eq_true, ite_false, hempty,
    decide_eq_true hnext, Bool.true_and, ite_true]
  refine ⟨_, rfl, ?_, ?_, ?_, ?_, ?_, ?_, rfl⟩
  · rw [(symex_transition_fields _ _ _ _).2.2.1]
    rfl
  · rw [(symex_transition_fields _ _ _ _).2.2.2.2]
    show (get_thread (update_thread s1.state.threads
      s1.state.source.thread_nr _) (s1.state.source.thread_nr + 1)).pc = _
    rw [get_thread_update_ne _ _ _ _ (by omega)]
  · rw [(symex_transition_fields _ _ _ _).1]
    show (get_thread (update_thread s1.state.threads
      s1.state.source.thread_nr _) (s1.state.source.thread_nr + 1)).guard = _
    rw [get_thread_update_ne _ _ _ _ (by omega)]
  · rw [symex_transition_threads_other _ _ _ _ _ (by
      show s1.state.source.thread_nr + 1 ≠ s1.state.source.thread_nr
      omega)]
    show (get_thread (update_thread s1.state.threads
      s1.state.source.thread_nr _) s1.state.source.thread_nr).pc = _
    rw [get_thread_update_self _ _ _ htlt]
  · rw [symex_transition_threads_other _ _ _ _ _ (by
      show s1.state.source.thread_nr + 1 ≠ s1.state.source.thread_nr
      omega)]
    show (get_thread (update_thread s1.state.threads
      s1.state.source.thread_nr _)
        s1.state.source.thread_nr).atomic_section_id = _
    rw [get_thread_update_self _ _ _ htlt]
  · rw [(symex_transition_fields _ _ _ _).2.1]
    rfl

/-- The state after one `symex_step` on `cex4_state`: the frame of
thread 0 has been torn down and the program counter advanced. -/
def cex4_s1 : symext :=
  { state := { source := { function_id := 0, pc := 1, thread_nr := 0 },
               guard := [],
               threads :=
                 [{ pc := 0, atomic_section_id := 0, guard := [],
                    call_stack := [] },
                  { pc := 9, atomic_section_id := 7, guard := [.sym 3],
                    call_stack := [] }],
               atomic_section_id := 0,
               depth := 1 } }

theorem symex_threaded_step_switches_witness :
    ∃ s', symex_threaded_step ext_id {} cex4_prog cex4_state = some s' ∧
      s'.state.source.thread_nr = cex4_s1.state.source.thread_nr + 1 ∧
      s'.state.source.pc =
        (get_thread cex4_s1.state.threads
          (cex4_s1.state.source.thread_nr + 1)).pc ∧
      s'.state.guard =
        (get_thread cex4_s1.state.threads
          (cex4_s1.state.source.thread_nr + 1)).guard ∧
      (get_thread s'.state.threads cex4_s1.state.source.thread_nr).pc =
        cex4_s1.state.source.pc ∧
      (get_thread s'.state.threads
        cex4_s1.state.source.thread_nr).atomic_section_id =
        cex4_s1.state.atomic_section_id ∧
      s'.state.atomic_section_id = cex4_s1.state.atomic_section_id ∧
      s'.target = cex4_s1.target :=
  symex_threaded_step_switches ext_id {} cex4_prog cex4_state cex4_s1
    (by decide) (by decide) (by decide) (by decide)

end CbmcModel
